import Mathlib

/-!
Shallow embedding of the asset loading and caching layer of the league2
repository (src/league2/assets.py).

Modelling conventions:
* Python dictionaries are association lists; assignment prepends a pair and
  lookup returns the first match, so later assignments shadow earlier ones
  exactly as a dict overwrite does.
* pygame surfaces are modelled by the record Surface; pygame.Surface.subsurface
  allocates a fresh object (fresh id drawn from an allocation counter carried
  in the enclosing sheet or manager state) and fails (pygame ValueError) when
  the requested rectangle does not lie inside the parent surface.
* Python exceptions are modelled with the Err type and Except / Option results;
  Python floor division // is Int.fdiv, and division by zero is an explicit
  zeroDivision error where the source would raise ZeroDivisionError.
* File paths are modelled structurally (directory components, basename,
  extension) so that os.path.splitext / pathlib relative_to / separator
  normalisation become total component operations.
-/

deriving instance DecidableEq for Except

/-- Python exception kinds the asset code can raise. -/
inductive Err where
  | keyError
  | valueError
  | zeroDivision
  | runtimeError
  | ioError
  | typeError
deriving DecidableEq

/-- A rectangle (x, y, w, h) as passed to pygame subsurface. -/
structure Rect where
  x : Int
  y : Int
  w : Int
  h : Int
deriving DecidableEq

/-- Alpha-conversion state of a decoded surface: freshly decoded (raw),
convert_alpha() applied, or convert()+set_alpha(None) applied. -/
inductive Conv where
  | raw
  | alpha
  | plain
deriving DecidableEq

/-- Model of a pygame Surface: an allocation id (distinct objects have the id
they were allocated with, giving reference identity), the parent surface id for
pixel-sharing sub-views together with the sub-view offset, pixel dimensions,
and the conversion state. -/
structure Surface where
  id : Nat
  parent : Option Nat
  ox : Int
  oy : Int
  width : Int
  height : Int
  conv : Conv
deriving DecidableEq

/-- pygame.Surface.subsurface: succeeds iff the rectangle lies inside the
parent surface, returning a fresh pixel-sharing sub-view. -/
def Surface.subsurface (s : Surface) (r : Rect) (fresh : Nat) : Option Surface :=
  if 0 ≤ r.x ∧ 0 ≤ r.y ∧ 0 ≤ r.w ∧ 0 ≤ r.h ∧ r.x + r.w ≤ s.width ∧ r.y + r.h ≤ s.height
  then some ⟨fresh, some s.id, r.x, r.y, r.w, r.h, s.conv⟩
  else none

/-- pygame convert_alpha(). -/
def Surface.convertAlpha (s : Surface) : Surface := { s with conv := Conv.alpha }

/-- pygame convert() followed by set_alpha(None). -/
def Surface.convertPlain (s : Surface) : Surface := { s with conv := Conv.plain }

/-- First-match association-list lookup: Python dict read d[k] /
membership test k in d. -/
def dictGet {α β : Type} [DecidableEq α] : List (α × β) → α → Option β
  | [], _ => none
  | (a, b) :: t, k => if a = k then some b else dictGet t k

/-- TileSheet state (src/league2/assets.py, class TileSheet): the backing
surface, the row/column counts, the derived cell size, the memoised sub-view
cache, and the allocation counter for fresh sub-view ids. -/
structure TileSheet where
  surface : Surface
  rows : Int
  cols : Int
  cell_width : Int
  cell_height : Int
  cached : List ((Int × Int) × Surface)
  nextId : Nat
deriving DecidableEq

/-- TileSheet.__init__: cell_width = surface width // cols, then
cell_height = surface height // rows; Python // raises ZeroDivisionError on a
zero divisor and floor-divides otherwise (no validation of rows/cols). -/
def TileSheet.init (surface : Surface) (rows cols : Int) (fresh : Nat) :
    Except Err TileSheet :=
  if cols = 0 then Except.error Err.zeroDivision
  else if rows = 0 then Except.error Err.zeroDivision
  else Except.ok
    ⟨surface, rows, cols, Int.fdiv surface.width cols,
     Int.fdiv surface.height rows, [], fresh⟩

/-- TileSheet.get_max_rows. -/
def TileSheet.get_max_rows (ts : TileSheet) : Int := ts.rows

/-- TileSheet.get_max_columns. -/
def TileSheet.get_max_columns (ts : TileSheet) : Int := ts.cols

/-- TileSheet.get_tile: on a cache miss, slice the sub-surface at
(column * cell_width, row * cell_height, cell_width, cell_height) and memoise
it; on a hit return the cached instance. No range check on row/column; a
rectangle outside the surface is a pygame ValueError. -/
def TileSheet.get_tile (ts : TileSheet) (row column : Int) :
    Except Err (Surface × TileSheet) :=
  match dictGet ts.cached (row, column) with
  | some s => Except.ok (s, ts)
  | none =>
    match ts.surface.subsurface
        ⟨column * ts.cell_width, row * ts.cell_height,
         ts.cell_width, ts.cell_height⟩ ts.nextId with
    | none => Except.error Err.valueError
    | some s =>
      Except.ok (s, { ts with cached := ((row, column), s) :: ts.cached,
                              nextId := ts.nextId + 1 })

/-- SpriteSheet state (src/league2/assets.py, class SpriteSheet): the backing
surface, the memoised sub-view cache, the registered name → rect mapping, and
the allocation counter for fresh sub-view ids. -/
structure SpriteSheet where
  surface : Surface
  cached : List (String × Surface)
  packed : List (String × Rect)
  nextId : Nat
deriving DecidableEq

/-- SpriteSheet.__init__. -/
def SpriteSheet.init (surface : Surface) : SpriteSheet := ⟨surface, [], [], 0⟩

/-- SpriteSheet.add_sprite: register (or overwrite) a named region in the
packed mapping; the sub-view cache is not touched. -/
def SpriteSheet.add_sprite (ss : SpriteSheet) (name : String) (rect : Rect) :
    SpriteSheet :=
  { ss with packed := (name, rect) :: ss.packed }

/-- SpriteSheet.get_sprite: on a cache miss, look the name up in the packed
mapping (KeyError when absent), slice the sub-surface and memoise it; on a hit
return the cached instance. -/
def SpriteSheet.get_sprite (ss : SpriteSheet) (name : String) :
    Except Err (Surface × SpriteSheet) :=
  match dictGet ss.cached name with
  | some s => Except.ok (s, ss)
  | none =>
    match dictGet ss.packed name with
    | none => Except.error Err.keyError
    | some r =>
      match ss.surface.subsurface r ss.nextId with
      | none => Except.error Err.valueError
      | some s =>
        Except.ok (s, { ss with cached := (name, s) :: ss.cached,
                                nextId := ss.nextId + 1 })

/-- A file path, modelled structurally: directory components, basename and
extension (with the dot). os.path.join / splitext / pathlib relative_to of the
source become component operations on this record. -/
structure FPath where
  dirs : List String
  base : String
  ext : String
deriving DecidableEq

/-- A loaded font asset: pygame.font.Font(fname, size). -/
structure FontAsset where
  file : FPath
  size : Int
deriving DecidableEq

/-- A parsed asset descriptor dictionary. Each field is optional because a
sidecar JSON file may omit it; reading an absent field is a Python KeyError.
A sprites entry whose value cannot be converted by tuple() is modelled as
none (Python TypeError at conversion time). -/
structure Descriptor where
  dtype : Option String := none
  alpha : Option Bool := none
  rows : Option Int := none
  columns : Option Int := none
  sprites : Option (List (String × Option Rect)) := none
  size : Option Int := none
deriving DecidableEq

/-- Result of looking for a sidecar JSON file next to an asset: no such file,
a file whose contents fail json.loads, or a parsed descriptor. -/
inductive Sidecar where
  | absent
  | malformed
  | found (d : Descriptor)

/-- The external world an AssetManager interacts with: directory walk, sidecar
files, the image decoder (none = pygame.image.load failure) reporting pixel
dimensions, and the font loader success flag. -/
structure Env where
  walk : List String → List FPath
  sidecar : FPath → Sidecar
  decode : FPath → Option (Int × Int)
  fontOk : FPath → Bool

def image_exts : List String := [".png", ".jpg", ".jpeg", ".bmp"]

def font_exts : List String := [".ttf"]

def exts : List String := image_exts ++ font_exts

/-- os.path.splitext(pathlib.Path(fname).relative_to(root))[0] followed by
separator normalisation: the root components must prefix the path (else
pathlib raises ValueError), and the logical name is the remaining components
joined with the canonical separator, extension stripped. -/
def relName (root : List String) (p : FPath) : Option String :=
  if root.isPrefixOf p.dirs then
    some (String.intercalate "/" (List.drop root.length p.dirs ++ [p.base]))
  else none

/-- AssetManager state (src/league2/assets.py, class AssetManager): the root
directory, the finished flag, the loaded-file counter, the pending file list,
the already-loaded file list, the four kind caches, and the allocation counter
for fresh surface ids. -/
structure AssetManager where
  root : List String
  finished : Bool
  loaded_files : Nat
  files : List FPath
  cached_files : List FPath
  surfaces : List (String × Surface)
  tilesheets : List (String × TileSheet)
  spritesheets : List (String × SpriteSheet)
  fonts : List (String × FontAsset)
  nextId : Nat
deriving DecidableEq

/-- AssetManager.__init__. -/
def initAM (root : List String) : AssetManager :=
  ⟨root, true, 0, [], [], [], [], [], [], 0⟩

/-- AssetManager.__fill_defaults: guess a descriptor from the extension;
unknown extensions raise RuntimeError. -/
def fill_defaults (ext : String) : Except Err Descriptor :=
  if ext ∈ image_exts then
    Except.ok { dtype := some "sprite", alpha := some true }
  else if ext ∈ font_exts then
    Except.ok { dtype := some "font", size := some 12 }
  else Except.error Err.runtimeError

/-- The descriptor __load_file ends up dispatching on: the extension default,
fully replaced by the sidecar descriptor when a sidecar file exists (a sidecar
that fails json.loads is a ValueError). The default is computed first, so an
unknown extension raises even when a sidecar exists. -/
def effectiveData (env : Env) (f : FPath) : Except Err Descriptor :=
  match fill_defaults f.ext with
  | Except.error e => Except.error e
  | Except.ok d =>
    match env.sidecar f with
    | Sidecar.absent => Except.ok d
    | Sidecar.malformed => Except.error Err.valueError
    | Sidecar.found d2 => Except.ok d2

/-- The sprite branch of __load_file: the raw decoded surface is stored in the
surface cache first, and only then is data['alpha'] read — a missing alpha
field raises KeyError with the unconverted surface already cached. -/
def loadSprite (env : Env) (st : AssetManager) (f : FPath) (n : String)
    (data : Descriptor) : AssetManager × Option Err :=
  match env.decode f with
  | none => (st, some Err.ioError)
  | some (w, h) =>
    let s : Surface := ⟨st.nextId, none, 0, 0, w, h, Conv.raw⟩
    let st2 := { st with surfaces := (n, s) :: st.surfaces,
                         nextId := st.nextId + 1 }
    match data.alpha with
    | none => (st2, some Err.keyError)
    | some true =>
      ({ st2 with surfaces := (n, s.convertAlpha) :: st2.surfaces }, none)
    | some false =>
      ({ st2 with surfaces := (n, s.convertPlain) :: st2.surfaces }, none)

/-- The tilesheet branch of __load_file: decode, convert, then construct
TileSheet(image, data['rows'], data['columns']); missing fields are KeyErrors
raised before the cache is written. -/
def loadTilesheet (env : Env) (st : AssetManager) (f : FPath) (n : String)
    (data : Descriptor) : AssetManager × Option Err :=
  match env.decode f with
  | none => (st, some Err.ioError)
  | some (w, h) =>
    let img : Surface := ⟨st.nextId, none, 0, 0, w, h, Conv.raw⟩
    let st2 := { st with nextId := st.nextId + 1 }
    match data.alpha with
    | none => (st2, some Err.keyError)
    | some b =>
      let img2 := if b then img.convertAlpha else img.convertPlain
      match data.rows with
      | none => (st2, some Err.keyError)
      | some r =>
        match data.columns with
        | none => (st2, some Err.keyError)
        | some c =>
          match TileSheet.init img2 r c 0 with
          | Except.error e => (st2, some e)
          | Except.ok ts =>
            ({ st2 with tilesheets := (n, ts) :: st2.tilesheets }, none)

/-- The per-entry loop of the spritesheet branch: each add_sprite mutates the
sheet object already stored in the cache, so the cache entry is refreshed at
every step; a sprites value that tuple() cannot convert raises TypeError with
the partially populated sheet still cached. -/
def addSprites (n : String) :
    AssetManager → SpriteSheet → List (String × Option Rect) →
    AssetManager × Option Err
  | st, _, [] => (st, none)
  | st, _, (_, none) :: _ => (st, some Err.typeError)
  | st, sheet, (spr, some r) :: rest =>
    let sheet2 := sheet.add_sprite spr r
    addSprites n { st with spritesheets := (n, sheet2) :: st.spritesheets }
      sheet2 rest

/-- The spritesheet branch of __load_file: decode, convert, store an empty
SpriteSheet in the cache, then populate it from data['sprites'] — a missing
sprites field raises KeyError with the empty sheet already cached. -/
def loadSpritesheet (env : Env) (st : AssetManager) (f : FPath) (n : String)
    (data : Descriptor) : AssetManager × Option Err :=
  match env.decode f with
  | none => (st, some Err.ioError)
  | some (w, h) =>
    let img : Surface := ⟨st.nextId, none, 0, 0, w, h, Conv.raw⟩
    let st2 := { st with nextId := st.nextId + 1 }
    match data.alpha with
    | none => (st2, some Err.keyError)
    | some b =>
      let img2 := if b then img.convertAlpha else img.convertPlain
      let sheet := SpriteSheet.init img2
      let st3 := { st2 with spritesheets := (n, sheet) :: st2.spritesheets }
      match data.sprites with
      | none => (st3, some Err.keyError)
      | some sprs => addSprites n st3 sheet sprs

/-- The font branch of __load_file: pygame.font.Font(fname, data['size']);
the size field is read before the font file is opened. -/
def loadFont (env : Env) (st : AssetManager) (f : FPath) (n : String)
    (data : Descriptor) : AssetManager × Option Err :=
  match data.size with
  | none => (st, some Err.keyError)
  | some sz =>
    if env.fontOk f then
      ({ st with fonts := (n, (⟨f, sz⟩ : FontAsset)) :: st.fonts }, none)
    else (st, some Err.ioError)

/-- AssetManager.__load_file: skip files already in the loaded list; compute
the logical name (pathlib relative_to — ValueError when the path is not under
the root, raised before the path is recorded); record the path; resolve the
descriptor; dispatch on its type tag (an unknown tag is an IOError). -/
def AssetManager.load_file (env : Env) (st : AssetManager) (f : FPath) :
    AssetManager × Option Err :=
  if f ∈ st.cached_files then (st, none)
  else
    match relName st.root f with
    | none => (st, some Err.valueError)
    | some n =>
      let st1 := { st with cached_files := st.cached_files ++ [f] }
      match effectiveData env f with
      | Except.error e => (st1, some e)
      | Except.ok data =>
        match data.dtype with
        | none => (st1, some Err.keyError)
        | some t =>
          if t = "sprite" then loadSprite env st1 f n data
          else if t = "tilesheet" then loadTilesheet env st1 f n data
          else if t = "spritesheet" then loadSpritesheet env st1 f n data
          else if t = "font" then loadFont env st1 f n data
          else (st1, some Err.ioError)

/-- The synchronous preload loop of AssetManager.start: load files one at a
time; an exception aborts the loop and propagates to the caller. -/
def loadAll (env : Env) : AssetManager → List FPath → AssetManager × Option Err
  | st, [] => (st, none)
  | st, f :: fs =>
    match AssetManager.load_file env st f with
    | (st2, some e) => (st2, some e)
    | (st2, none) => loadAll env st2 fs

/-- AssetManager.start: reject when a load is in progress (RuntimeError);
optionally replace the root; append every walked file with a supported
extension to the pending list; synchronously load the preload list (errors
propagate, leaving the finished flag set and no worker spawned); otherwise
clear the finished flag and hand the pending list to the worker. -/
def AssetManager.start (env : Env) (st : AssetManager) (preload : List FPath)
    (root : Option (List String)) : AssetManager × Option Err :=
  if st.finished = false then (st, some Err.runtimeError)
  else
    let st1 := match root with
      | some r => { st with root := r }
      | none => st
    let st2 := { st1 with
      files := st1.files ++ (env.walk st1.root).filter (fun f => f.ext ∈ exts) }
    match loadAll env st2 preload with
    | (st3, some e) => (st3, some e)
    | (st3, none) => ({ st3 with finished := false }, none)

/-- AssetManager.__load, run to completion: process each pending file,
incrementing loaded_files after each successful call; an uncaught exception
kills the worker thread (no increment, pending list not cleared, finished flag
never set); on normal completion clear the pending list and set finished. -/
def runWorker (env : Env) : List FPath → AssetManager → AssetManager
  | [], st => { st with files := [], finished := true }
  | f :: fs, st =>
    match AssetManager.load_file env st f with
    | (st2, some _) => st2
    | (st2, none) =>
      runWorker env fs { st2 with loaded_files := st2.loaded_files + 1 }

/-- The observable states of the background worker: the state after each loop
iteration (where the main thread can call get_progress between iterations),
ending with the crash state or the finished state. -/
def runStates (env : Env) : List FPath → AssetManager → List AssetManager
  | [], st => [{ st with files := [], finished := true }]
  | f :: fs, st =>
    match AssetManager.load_file env st f with
    | (st2, some _) => [st2]
    | (st2, none) =>
      let st3 := { st2 with loaded_files := st2.loaded_files + 1 }
      st3 :: runStates env fs st3

/-- AssetManager.is_finished. -/
def AssetManager.is_finished (st : AssetManager) : Bool := st.finished

/-- AssetManager.get_progress: loaded_files / len(files); none models the
ZeroDivisionError raised when the pending list is empty. -/
def AssetManager.get_progress (st : AssetManager) : Option ℚ :=
  if st.files.length = 0 then none
  else some ((st.loaded_files : ℚ) / (st.files.length : ℚ))

/-- AssetManager.get_surface: dictionary lookup, KeyError when absent. -/
def AssetManager.get_surface (st : AssetManager) (name : String) :
    Except Err Surface :=
  match dictGet st.surfaces name with
  | some s => Except.ok s
  | none => Except.error Err.keyError

/-- AssetManager.get_tilesheet. -/
def AssetManager.get_tilesheet (st : AssetManager) (name : String) :
    Except Err TileSheet :=
  match dictGet st.tilesheets name with
  | some s => Except.ok s
  | none => Except.error Err.keyError

/-- AssetManager.get_spritesheet. -/
def AssetManager.get_spritesheet (st : AssetManager) (name : String) :
    Except Err SpriteSheet :=
  match dictGet st.spritesheets name with
  | some s => Except.ok s
  | none => Except.error Err.keyError

/-- AssetManager.get_font. -/
def AssetManager.get_font (st : AssetManager) (name : String) :
    Except Err FontAsset :=
  match dictGet st.fonts name with
  | some s => Except.ok s
  | none => Except.error Err.keyError

/-- AssetManager.set_root. -/
def AssetManager.set_root (st : AssetManager) (root : List String) :
    AssetManager :=
  { st with root := root }

instance : Inhabited AssetManager := ⟨initAM []⟩

def c2Env : Env :=
  ⟨fun _ => [⟨[], "a", ".png"⟩, ⟨[], "b", ".png"⟩],
   fun _ => Sidecar.absent, fun _ => some (2, 2), fun _ => false⟩

def c2Run1 : AssetManager := (AssetManager.start c2Env (initAM []) [] none).1
def c2End1 : AssetManager := runWorker c2Env c2Run1.files c2Run1
def c2Run2 : AssetManager := (AssetManager.start c2Env c2End1 [] none).1
def c2Obs : AssetManager := (runStates c2Env c2Run2.files c2Run2).headI

-- C1 traces
def c1Env : Env :=
  ⟨fun _ => [], fun _ => Sidecar.absent, fun _ => none, fun _ => false⟩
def c1Run : AssetManager := (AssetManager.start c1Env (initAM ["r"]) [] none).1
def c1EnvB : Env :=
  ⟨fun _ => [⟨["r"], "a", ".png"⟩], fun _ => Sidecar.absent,
   fun _ => some (2, 2), fun _ => false⟩
def c1RunB : AssetManager := (AssetManager.start c1EnvB (initAM ["r"]) [] none).1
def c1EndB : AssetManager := runWorker c1EnvB c1RunB.files c1RunB

-- C4 traces
def c4Img : Surface := ⟨0, none, 0, 0, 4, 4, Conv.raw⟩
def c4V1 : Surface := ⟨0, some 0, 0, 0, 2, 2, Conv.raw⟩
def c4S2 : SpriteSheet := ⟨c4Img, [("a", c4V1)], [("a", ⟨0, 0, 2, 2⟩)], 1⟩
def c4S3 : SpriteSheet := c4S2.add_sprite "a" ⟨0, 0, 3, 3⟩

-- C5 trace

-- C6 trace
def c6Ts : TileSheet := ⟨⟨0, none, 0, 0, 5, 5, Conv.raw⟩, 3, 3, 1, 1, [], 0⟩
def c6Tile : Surface := ⟨0, some 0, 3, 0, 1, 1, Conv.raw⟩

-- C7 trace
def c7Env : Env :=
  ⟨fun _ => [], fun _ => Sidecar.found { dtype := some "sprite" },
   fun _ => some (8, 8), fun _ => true⟩
def c7F : FPath := ⟨[], "a", ".png"⟩

-- C8 trace
def c8Env : Env :=
  ⟨fun _ => [⟨[], "a", ".png"⟩, ⟨[], "a", ".ttf"⟩],
   fun _ => Sidecar.absent, fun _ => some (4, 4), fun _ => true⟩
def c8Run : AssetManager := (AssetManager.start c8Env (initAM []) [] none).1
def c8End : AssetManager := runWorker c8Env c8Run.files c8Run

-- C10 trace
def c10F : FPath := ⟨["q"], "a", ".png"⟩

lemma get_tile_stable (ts : TileSheet) (r c : Int) (v : Surface) (ts1 : TileSheet)
    (h : ts.get_tile r c = Except.ok (v, ts1)) :
    ts1.get_tile r c = Except.ok (v, ts1) := by
  unfold TileSheet.get_tile at h ⊢
  cases hc : dictGet ts.cached (r, c) with
  | some s =>
    rw [hc] at h
    simp only [Except.ok.injEq, Prod.mk.injEq] at h
    obtain ⟨h1, h2⟩ := h
    subst h1; subst h2
    rw [hc]
  | none =>
    rw [hc] at h
    cases hs : ts.surface.subsurface
        ⟨c * ts.cell_width, r * ts.cell_height,
         ts.cell_width, ts.cell_height⟩ ts.nextId with
    | none => rw [hs] at h; cases h
    | some s =>
      rw [hs] at h
      simp only [Except.ok.injEq, Prod.mk.injEq] at h
      obtain ⟨h1, h2⟩ := h
      subst h1; subst h2
      simp [dictGet]

/-- The possible shapes of a successful get_sprite call: a cache hit returning
the sheet unchanged, or a miss that slices the packed rectangle and memoises
the result. -/
lemma get_sprite_ok_cases (ss : SpriteSheet) (n : String) (v : Surface)
    (ss1 : SpriteSheet) (h : ss.get_sprite n = Except.ok (v, ss1)) :
    (dictGet ss.cached n = some v ∧ ss1 = ss) ∨
    (dictGet ss.cached n = none ∧ ∃ r, dictGet ss.packed n = some r ∧
      ss.surface.subsurface r ss.nextId = some v ∧
      ss1 = { ss with cached := (n, v) :: ss.cached, nextId := ss.nextId + 1 }) := by
  unfold SpriteSheet.get_sprite at h
  split at h
  · rename_i s hs
    simp only [Except.ok.injEq, Prod.mk.injEq] at h
    left
    exact ⟨by rw [hs, h.1], h.2.symm⟩
  · rename_i hs
    split at h
    · cases h
    · rename_i r hp
      split at h
      · cases h
      · rename_i s hsub
        simp only [Except.ok.injEq, Prod.mk.injEq] at h
        right
        refine ⟨hs, r, hp, by rw [hsub, h.1], ?_⟩
        rw [← h.1]
        exact h.2.symm

lemma get_sprite_ok_cached (ss : SpriteSheet) (n : String) (v : Surface)
    (ss1 : SpriteSheet) (h : ss.get_sprite n = Except.ok (v, ss1)) :
    dictGet ss1.cached n = some v := by
  rcases get_sprite_ok_cases ss n v ss1 h with ⟨h1, h2⟩ | ⟨h1, r, hp, hs, h2⟩
  · rw [h2, h1]
  · rw [h2]; simp [dictGet]

lemma get_sprite_stable (ss : SpriteSheet) (n : String) (v : Surface)
    (ss1 : SpriteSheet) (h : ss.get_sprite n = Except.ok (v, ss1)) :
    ss1.get_sprite n = Except.ok (v, ss1) := by
  have hc := get_sprite_ok_cached ss n v ss1 h
  unfold SpriteSheet.get_sprite
  rw [hc]

/-- Claim C3: calling TileSheet.get_tile twice with the same (row, column),
and SpriteSheet.get_sprite twice with the same name, returns the
reference-identical cached instance computed on the first access, the sheet
state being unchanged by the second call. -/
theorem c3_lookup_memoised (ts : TileSheet) (r c : Int) (v : Surface)
    (ts1 : TileSheet) (ss : SpriteSheet) (n : String) (w : Surface)
    (ss1 : SpriteSheet)
    (ht : ts.get_tile r c = Except.ok (v, ts1))
    (hs : ss.get_sprite n = Except.ok (w, ss1)) :
    ts1.get_tile r c = Except.ok (v, ts1) ∧
    ss1.get_sprite n = Except.ok (w, ss1) :=
  ⟨get_tile_stable ts r c v ts1 ht, get_sprite_stable ss n w ss1 hs⟩

def c3Ts : TileSheet := ⟨⟨0, none, 0, 0, 4, 4, Conv.raw⟩, 2, 2, 2, 2, [], 0⟩
def c3V : Surface := ⟨0, some 0, 2, 0, 2, 2, Conv.raw⟩
def c3Ts1 : TileSheet :=
  ⟨⟨0, none, 0, 0, 4, 4, Conv.raw⟩, 2, 2, 2, 2, [((0, 1), c3V)], 1⟩
def c3Ss : SpriteSheet :=
  ⟨⟨1, none, 0, 0, 4, 4, Conv.raw⟩, [], [("a", ⟨0, 0, 2, 2⟩)], 0⟩
def c3W : Surface := ⟨0, some 1, 0, 0, 2, 2, Conv.raw⟩
def c3Ss1 : SpriteSheet :=
  ⟨⟨1, none, 0, 0, 4, 4, Conv.raw⟩, [("a", c3W)], [("a", ⟨0, 0, 2, 2⟩)], 1⟩

/-- Witness for C3 at a concrete tile-sheet and sprite-sheet. -/
theorem c3_lookup_memoised_witness :
    c3Ts1.get_tile 0 1 = Except.ok (c3V, c3Ts1) ∧
    c3Ss1.get_sprite "a" = Except.ok (c3W, c3Ss1) :=
  c3_lookup_memoised c3Ts 0 1 c3V c3Ts1 c3Ss "a" c3W c3Ss1 (by decide) (by decide)

/-- Claim C9: after a successful getSprite(name), a later addSprite(name, r2)
does not invalidate the memoised sub-view: getSprite(name) still returns the
originally sliced instance. -/
theorem c9_add_sprite_no_invalidate (ss : SpriteSheet) (name : String)
    (v : Surface) (ss1 : SpriteSheet) (rect2 : Rect)
    (h : ss.get_sprite name = Except.ok (v, ss1)) :
    (ss1.add_sprite name rect2).get_sprite name =
      Except.ok (v, ss1.add_sprite name rect2) := by
  have hc := get_sprite_ok_cached ss name v ss1 h
  unfold SpriteSheet.get_sprite SpriteSheet.add_sprite
  rw [show ({ ss1 with packed := (name, rect2) :: ss1.packed } : SpriteSheet).cached
        = ss1.cached from rfl, hc]

/-- Witness for C9: the memoised view of the original 2x2 rectangle survives a
re-registration of the name with a 3x3 rectangle. -/
theorem c9_add_sprite_no_invalidate_witness :
    (c3Ss1.add_sprite "a" ⟨0, 0, 3, 3⟩).get_sprite "a" =
      Except.ok (c3W, c3Ss1.add_sprite "a" ⟨0, 0, 3, 3⟩) :=
  c9_add_sprite_no_invalidate c3Ss "a" c3W c3Ss1 ⟨0, 0, 3, 3⟩ (by decide)

/-- An observable client operation on a SpriteSheet. -/
inductive SOp where
  | add (name : String) (rect : Rect)
  | get (name : String)

/-- Apply one operation; a failed get_sprite leaves the sheet unchanged
(the Python exception propagates without mutating the object). -/
def SpriteSheet.applyOp (ss : SpriteSheet) : SOp → SpriteSheet
  | SOp.add n r => ss.add_sprite n r
  | SOp.get n =>
    match ss.get_sprite n with
    | Except.ok p => p.2
    | Except.error _ => ss

/-- Run a sequence of client operations. -/
def SpriteSheet.runOps (ss : SpriteSheet) : List SOp → SpriteSheet
  | [] => ss
  | op :: ops => (ss.applyOp op).runOps ops

/-- The names registered by a sequence of operations. -/
def addedNames : List SOp → List String
  | [] => []
  | SOp.add n _ :: ops => n :: addedNames ops
  | SOp.get _ :: ops => addedNames ops

lemma applyOp_surface (ss : SpriteSheet) (op : SOp) :
    (ss.applyOp op).surface = ss.surface := by
  cases op with
  | add n r => rfl
  | get n =>
    simp only [SpriteSheet.applyOp]
    cases h : ss.get_sprite n with
    | error e => rfl
    | ok p =>
      rcases get_sprite_ok_cases ss n p.1 p.2 (by rw [h]) with ⟨_, h2⟩ | ⟨_, r, _, _, h2⟩ <;>
        simp [h2]

lemma runOps_surface (ops : List SOp) : ∀ ss : SpriteSheet,
    (ss.runOps ops).surface = ss.surface := by
  induction ops with
  | nil => intro ss; rfl
  | cons op ops ih =>
    intro ss
    rw [SpriteSheet.runOps, ih, applyOp_surface]

lemma applyOp_get_packed (ss : SpriteSheet) (m : String) :
    (ss.applyOp (SOp.get m)).packed = ss.packed := by
  simp only [SpriteSheet.applyOp]
  cases h : ss.get_sprite m with
  | error e => rfl
  | ok p =>
    rcases get_sprite_ok_cases ss m p.1 p.2 (by rw [h]) with ⟨_, h2⟩ | ⟨_, r, _, _, h2⟩ <;>
      simp [h2]

lemma applyOp_packed_none (ss : SpriteSheet) (op : SOp) (n : String) :
    dictGet (ss.applyOp op).packed n = none ↔
      dictGet ss.packed n = none ∧ n ∉ addedNames [op] := by
  cases op with
  | add m r =>
    simp only [SpriteSheet.applyOp, SpriteSheet.add_sprite, dictGet, addedNames]
    by_cases hm : m = n
    · subst hm; simp
    · simp [hm, Ne.symm hm]
  | get m =>
    simp [applyOp_get_packed, addedNames]

lemma runOps_packed_none (ops : List SOp) : ∀ (ss : SpriteSheet) (n : String),
    dictGet (ss.runOps ops).packed n = none ↔
      dictGet ss.packed n = none ∧ n ∉ addedNames ops := by
  induction ops with
  | nil => intro ss n; simp [SpriteSheet.runOps, addedNames]
  | cons op ops ih =>
    intro ss n
    rw [SpriteSheet.runOps, ih, applyOp_packed_none]
    cases op with
    | add m r =>
      simp only [addedNames, List.mem_cons, List.mem_singleton]
      constructor
      · rintro ⟨⟨h1, h2⟩, h3⟩
        exact ⟨h1, by simp [addedNames] at h2; tauto⟩
      · rintro ⟨h1, h2⟩
        simp [addedNames]
        tauto
    | get m =>
      simp [addedNames]

/-- Invariant: every memoised name is a registered name. -/
def cachedSub (ss : SpriteSheet) : Prop :=
  ∀ n, dictGet ss.packed n = none → dictGet ss.cached n = none

lemma applyOp_cachedSub (ss : SpriteSheet) (op : SOp) (h : cachedSub ss) :
    cachedSub (ss.applyOp op) := by
  cases op with
  | add m r =>
    intro n hp
    simp only [SpriteSheet.applyOp, SpriteSheet.add_sprite, dictGet] at hp ⊢
    by_cases hm : m = n
    · simp [hm] at hp
    · exact h n (by simpa [hm] using hp)
  | get m =>
    have hpk := applyOp_get_packed ss m
    intro n hp
    rw [hpk] at hp
    simp only [SpriteSheet.applyOp] at hp ⊢
    cases hg : ss.get_sprite m with
    | error e => exact h n hp
    | ok p =>
      rcases get_sprite_ok_cases ss m p.1 p.2 (by rw [hg]) with ⟨_, h2⟩ | ⟨_, r, hpack, _, h2⟩
      · simp only [h2]
        exact h n hp
      · simp only [h2, dictGet]
        by_cases hm : m = n
        · subst hm
          rw [hpack] at hp
          cases hp
        · simp only [hm, if_false]
          exact h n hp

lemma runOps_cachedSub (ops : List SOp) : ∀ ss : SpriteSheet,
    cachedSub ss → cachedSub (ss.runOps ops) := by
  induction ops with
  | nil => intro ss h; exact h
  | cons op ops ih =>
    intro ss h
    exact ih (ss.applyOp op) (applyOp_cachedSub ss op h)

lemma get_sprite_keyError (ss : SpriteSheet) (n : String) :
    ss.get_sprite n = Except.error Err.keyError ↔
      (dictGet ss.cached n = none ∧ dictGet ss.packed n = none) := by
  unfold SpriteSheet.get_sprite
  cases hc : dictGet ss.cached n with
  | some s => simp
  | none =>
    cases hp : dictGet ss.packed n with
    | none => simp
    | some r =>
      cases hs : ss.surface.subsurface r ss.nextId with
      | none => simp [hs]
      | some s => simp [hs]

lemma get_sprite_miss (ss : SpriteSheet) (n : String) (r : Rect) (v : Surface)
    (hc : dictGet ss.cached n = none) (hp : dictGet ss.packed n = some r)
    (hs : ss.surface.subsurface r ss.nextId = some v) :
    ss.get_sprite n = Except.ok
      (v, { ss with cached := (n, v) :: ss.cached, nextId := ss.nextId + 1 }) := by
  unfold SpriteSheet.get_sprite
  simp only [hc, hp, hs]

/-- Claim C4 (amended): over any sheet reachable from a fresh SpriteSheet by
add_sprite / get_sprite operations, getSprite(name) fails with KeyError
(NotFound) exactly when name was never registered; and after
addSprite(name, rect), if no earlier getSprite(name) call memoised a stale
sub-view and the rectangle lies inside the image, getSprite(name) succeeds
with a pixel-sharing sub-view of exactly the rectangle's dimensions. -/
theorem c4_get_sprite_notfound_and_fresh_dims (img : Surface) (ops : List SOp)
    (name : String) (rect : Rect)
    (ss : SpriteSheet) (hss : ss = (SpriteSheet.init img).runOps ops)
    (hc : dictGet ss.cached name = none)
    (hx : 0 ≤ rect.x) (hy : 0 ≤ rect.y) (hw : 0 ≤ rect.w) (hh : 0 ≤ rect.h)
    (hxw : rect.x + rect.w ≤ img.width) (hyh : rect.y + rect.h ≤ img.height) :
    (ss.get_sprite name = Except.error Err.keyError ↔ name ∉ addedNames ops) ∧
    ∃ v ss2, (ss.add_sprite name rect).get_sprite name = Except.ok (v, ss2) ∧
      v.width = rect.w ∧ v.height = rect.h ∧ v.parent = some img.id := by
  have hsurf : ss.surface = img := by
    rw [hss, runOps_surface]
    rfl
  have hsub : cachedSub ss := by
    rw [hss]
    exact runOps_cachedSub ops (SpriteSheet.init img) (fun n _ => rfl)
  have hpacked : dictGet ss.packed name = none ↔ name ∉ addedNames ops := by
    rw [hss, runOps_packed_none]
    simp [SpriteSheet.init, dictGet]
  constructor
  · rw [get_sprite_keyError]
    constructor
    · rintro ⟨_, h2⟩
      exact hpacked.mp h2
    · intro h2
      have hp := hpacked.mpr h2
      exact ⟨hsub name hp, hp⟩
  · have hcadd : dictGet (ss.add_sprite name rect).cached name = none := hc
    have hpadd : dictGet (ss.add_sprite name rect).packed name = some rect := by
      simp [SpriteSheet.add_sprite, dictGet]
    have hsub2 : (ss.add_sprite name rect).surface.subsurface rect
        (ss.add_sprite name rect).nextId =
        some ⟨ss.nextId, some img.id, rect.x, rect.y, rect.w, rect.h, img.conv⟩ := by
      have hsurfadd : (ss.add_sprite name rect).surface = ss.surface := rfl
      rw [hsurfadd, hsurf]
      unfold Surface.subsurface
      rw [if_pos ⟨hx, hy, hw, hh, hxw, hyh⟩]
      rfl
    exact ⟨_, _, get_sprite_miss (ss.add_sprite name rect) name rect _ hcadd hpadd hsub2,
      rfl, rfl, rfl⟩

def c4WOps : List SOp := [SOp.add "a" ⟨0, 0, 2, 2⟩]
def c4WSs : SpriteSheet := (SpriteSheet.init c4Img).runOps c4WOps

/-- Witness for C4 (amended) on a concrete one-registration sheet. -/
theorem c4_get_sprite_notfound_and_fresh_dims_witness :
    (c4WSs.get_sprite "b" = Except.error Err.keyError ↔ "b" ∉ addedNames c4WOps) ∧
    ∃ v ss2, (c4WSs.add_sprite "b" ⟨1, 1, 2, 2⟩).get_sprite "b" = Except.ok (v, ss2) ∧
      v.width = (⟨1, 1, 2, 2⟩ : Rect).w ∧ v.height = (⟨1, 1, 2, 2⟩ : Rect).h ∧
      v.parent = some c4Img.id :=
  c4_get_sprite_notfound_and_fresh_dims c4Img c4WOps "b" ⟨1, 1, 2, 2⟩ c4WSs rfl
    (by decide) (by decide) (by decide) (by decide) (by decide) (by decide) (by decide)

/-- Counterexample to C4 as stated: after a successful getSprite("a") of the
2x2 rectangle, re-registering "a" with a 3x3 rectangle and calling
getSprite("a") again succeeds but returns the stale memoised 2x2 view, whose
width differs from the registered rectangle's; and a name registered with an
out-of-bounds rectangle makes getSprite fail with ValueError, not succeed. -/
theorem c4_counterexample :
    SpriteSheet.get_sprite ((SpriteSheet.init c4Img).add_sprite "a" ⟨0, 0, 2, 2⟩) "a" =
      Except.ok (c4V1, c4S2) ∧
    SpriteSheet.get_sprite c4S3 "a" = Except.ok (c4V1, c4S3) ∧
    c4S3.packed = [("a", ⟨0, 0, 3, 3⟩), ("a", ⟨0, 0, 2, 2⟩)] ∧
    c4V1.width ≠ (⟨0, 0, 3, 3⟩ : Rect).w ∧
    SpriteSheet.get_sprite ((SpriteSheet.init c4Img).add_sprite "b" ⟨0, 0, 9, 9⟩) "b" =
      Except.error Err.valueError := by decide

/-- Counterexample to C5 as stated: a TileSheet constructed with negative rows
and columns does not fail at all — no InvalidDimensions check exists; the
constructor floor-divides and stores negative cell sizes. -/
theorem c5_counterexample :
    TileSheet.init ⟨0, none, 0, 0, 6, 6, Conv.raw⟩ (-2) (-3) 0 =
      Except.ok ⟨⟨0, none, 0, 0, 6, 6, Conv.raw⟩, -2, -3, -2, -3, [], 0⟩ ∧
    (-2 : Int) < 0 ∧ (-3 : Int) < 0 := by decide

/-- Claim C5 (amended): TileSheet construction fails only with a
division-by-zero error, exactly when rows = 0 or cols = 0; for all other
values, negative ones included, construction succeeds with no validation. -/
theorem c5_init_no_validation (img : Surface) (rows cols : Int) (fresh : Nat) :
    (TileSheet.init img rows cols fresh = Except.error Err.zeroDivision ↔
      rows = 0 ∨ cols = 0) ∧
    ((∃ ts, TileSheet.init img rows cols fresh = Except.ok ts) ↔
      ¬(rows = 0 ∨ cols = 0)) := by
  unfold TileSheet.init
  by_cases h1 : cols = 0
  · simp [h1]
  · by_cases h2 : rows = 0 <;> simp [h1, h2]

/-- Counterexample to C6 as stated: on a 5-pixel-wide sheet declared with 3
columns (cell width 1), the out-of-range request getTile(0, 3) does not fail
with IndexOutOfRange — there is no range check, and the computed rectangle
still fits inside the surface, so the call succeeds. -/
theorem c6_counterexample :
    TileSheet.init ⟨0, none, 0, 0, 5, 5, Conv.raw⟩ 3 3 0 = Except.ok c6Ts ∧
    ¬(3 : Int) < c6Ts.cols ∧
    c6Ts.get_tile 0 3 =
      Except.ok (c6Tile, { c6Ts with cached := [((0, 3), c6Tile)], nextId := 1 }) := by
  decide

/-- Claim C6 (amended): for a TileSheet constructed from an image with
non-negative dimensions and any in-range (row, column), getTile returns the
pixel-sharing sub-view at rectangle (column * cellWidth, row * cellHeight,
cellWidth, cellHeight) with cellWidth = floor(imageWidth / columns) and
cellHeight = floor(imageHeight / rows); out-of-range indices are not rejected
with IndexOutOfRange (no check exists — see the counterexample). -/
theorem c6_get_tile_in_range (img : Surface) (rows cols : Int) (fresh : Nat)
    (ts : TileSheet) (r c : Int)
    (hw : 0 ≤ img.width) (hh : 0 ≤ img.height)
    (hinit : TileSheet.init img rows cols fresh = Except.ok ts)
    (hr0 : 0 ≤ r) (hr1 : r < rows) (hc0 : 0 ≤ c) (hc1 : c < cols) :
    ts.cell_width = Int.fdiv img.width cols ∧
    ts.cell_height = Int.fdiv img.height rows ∧
    ∃ ts2, ts.get_tile r c = Except.ok
      (⟨fresh, some img.id, c * Int.fdiv img.width cols,
        r * Int.fdiv img.height rows, Int.fdiv img.width cols,
        Int.fdiv img.height rows, img.conv⟩, ts2) := by
  have hcols : cols ≠ 0 := by omega
  have hrows : rows ≠ 0 := by omega
  unfold TileSheet.init at hinit
  rw [if_neg hcols, if_neg hrows] at hinit
  simp only [Except.ok.injEq] at hinit
  subst hinit
  refine ⟨rfl, rfl, ?_⟩
  have hcw : 0 ≤ Int.fdiv img.width cols := Int.fdiv_nonneg hw (by omega)
  have hch : 0 ≤ Int.fdiv img.height rows := Int.fdiv_nonneg hh (by omega)
  have hxb : c * Int.fdiv img.width cols + Int.fdiv img.width cols ≤ img.width := by
    have h1 : (c + 1) * Int.fdiv img.width cols ≤ cols * Int.fdiv img.width cols :=
      mul_le_mul_of_nonneg_right (by omega) hcw
    have h2 : cols * Int.fdiv img.width cols ≤ img.width := by
      rw [Int.fdiv_eq_ediv _ (by omega : (0 : Int) ≤ cols)]
      calc cols * (img.width / cols) = img.width / cols * cols := by ring
        _ ≤ img.width := Int.ediv_mul_le _ hcols
    calc c * Int.fdiv img.width cols + Int.fdiv img.width cols
        = (c + 1) * Int.fdiv img.width cols := by ring
      _ ≤ cols * Int.fdiv img.width cols := h1
      _ ≤ img.width := h2
  have hyb : r * Int.fdiv img.height rows + Int.fdiv img.height rows ≤ img.height := by
    have h1 : (r + 1) * Int.fdiv img.height rows ≤ rows * Int.fdiv img.height rows :=
      mul_le_mul_of_nonneg_right (by omega) hch
    have h2 : rows * Int.fdiv img.height rows ≤ img.height := by
      rw [Int.fdiv_eq_ediv _ (by omega : (0 : Int) ≤ rows)]
      calc rows * (img.height / rows) = img.height / rows * rows := by ring
        _ ≤ img.height := Int.ediv_mul_le _ hrows
    calc r * Int.fdiv img.height rows + Int.fdiv img.height rows
        = (r + 1) * Int.fdiv img.height rows := by ring
      _ ≤ rows * Int.fdiv img.height rows := h1
      _ ≤ img.height := h2
  unfold TileSheet.get_tile
  simp only [dictGet, Surface.subsurface]
  rw [if_pos ⟨mul_nonneg hc0 hcw, mul_nonneg hr0 hch, hcw, hch, hxb, hyb⟩]
  exact ⟨_, rfl⟩

def c6WTs : TileSheet := ⟨⟨0, none, 0, 0, 4, 4, Conv.raw⟩, 2, 2, 2, 2, [], 0⟩

/-- Witness for C6 (amended) on a concrete 4x4 sheet with a 2x2 grid. -/
theorem c6_get_tile_in_range_witness :
    c6WTs.cell_width = 2 ∧ c6WTs.cell_height = 2 ∧
    ∃ ts2, c6WTs.get_tile 1 1 = Except.ok
      (⟨0, some 0, 2, 2, 2, 2, Conv.raw⟩, ts2) :=
  c6_get_tile_in_range ⟨0, none, 0, 0, 4, 4, Conv.raw⟩ 2 2 0 c6WTs 1 1
    (by decide) (by decide) (by decide) (by decide) (by decide) (by decide) (by decide)

lemma addSprites_state (n : String) : ∀ (l : List (String × Option Rect))
    (st : AssetManager) (sheet : SpriteSheet),
    ∃ sps, (addSprites n st sheet l).1 = { st with spritesheets := sps } := by
  intro l
  induction l with
  | nil => intro st sheet; exact ⟨st.spritesheets, rfl⟩
  | cons e rest ih =>
    intro st sheet
    rcases e with ⟨spr, r⟩
    cases r with
    | none => exact ⟨st.spritesheets, rfl⟩
    | some rc =>
      rcases ih { st with spritesheets :=
          (n, sheet.add_sprite spr rc) :: st.spritesheets }
          (sheet.add_sprite spr rc) with ⟨sps, hs⟩
      refine ⟨sps, ?_⟩
      simp only [addSprites]
      rw [hs]

lemma loadSprite_state (env : Env) (st : AssetManager) (f : FPath) (n : String)
    (data : Descriptor) :
    ∃ sf ni, (loadSprite env st f n data).1 =
      { st with surfaces := sf, nextId := ni } := by
  unfold loadSprite
  rcases hd : env.decode f with _ | ⟨w, h⟩
  · exact ⟨st.surfaces, st.nextId, rfl⟩
  · rcases ha : data.alpha with _ | b
    · exact ⟨_, _, rfl⟩
    · cases b <;> exact ⟨_, _, rfl⟩

lemma loadTilesheet_state (env : Env) (st : AssetManager) (f : FPath)
    (n : String) (data : Descriptor) :
    ∃ tl ni, (loadTilesheet env st f n data).1 =
      { st with tilesheets := tl, nextId := ni } := by
  unfold loadTilesheet
  rcases hd : env.decode f with _ | ⟨w, h⟩
  · exact ⟨st.tilesheets, st.nextId, rfl⟩
  · rcases ha : data.alpha with _ | b
    · exact ⟨_, _, rfl⟩
    · rcases hr : data.rows with _ | r
      · exact ⟨_, _, rfl⟩
      · rcases hc : data.columns with _ | c
        · exact ⟨_, _, rfl⟩
        · cases b
          · rcases hti : TileSheet.init
                (Surface.convertPlain ⟨st.nextId, none, 0, 0, w, h, Conv.raw⟩)
                r c 0 with e | ts
            · refine ⟨st.tilesheets, st.nextId + 1, ?_⟩
              simp [hti]
            · refine ⟨(n, ts) :: st.tilesheets, st.nextId + 1, ?_⟩
              simp [hti]
          · rcases hti : TileSheet.init
                (Surface.convertAlpha ⟨st.nextId, none, 0, 0, w, h, Conv.raw⟩)
                r c 0 with e | ts
            · refine ⟨st.tilesheets, st.nextId + 1, ?_⟩
              simp [hti]
            · refine ⟨(n, ts) :: st.tilesheets, st.nextId + 1, ?_⟩
              simp [hti]

lemma loadSpritesheet_state (env : Env) (st : AssetManager) (f : FPath)
    (n : String) (data : Descriptor) :
    ∃ sp ni, (loadSpritesheet env st f n data).1 =
      { st with spritesheets := sp, nextId := ni } := by
  unfold loadSpritesheet
  rcases hd : env.decode f with _ | ⟨w, h⟩
  · exact ⟨st.spritesheets, st.nextId, rfl⟩
  · rcases ha : data.alpha with _ | b
    · exact ⟨_, _, rfl⟩
    · cases b
      · rcases hsp : data.sprites with _ | sprs
        · exact ⟨_, _, rfl⟩
        · rcases addSprites_state n sprs
              { st with
                spritesheets := (n, SpriteSheet.init (Surface.convertPlain
                  ⟨st.nextId, none, 0, 0, w, h, Conv.raw⟩)) :: st.spritesheets,
                nextId := st.nextId + 1 }
              (SpriteSheet.init (Surface.convertPlain
                ⟨st.nextId, none, 0, 0, w, h, Conv.raw⟩)) with ⟨sps, hs⟩
          exact ⟨sps, st.nextId + 1, hs⟩
      · rcases hsp : data.sprites with _ | sprs
        · exact ⟨_, _, rfl⟩
        · rcases addSprites_state n sprs
              { st with
                spritesheets := (n, SpriteSheet.init (Surface.convertAlpha
                  ⟨st.nextId, none, 0, 0, w, h, Conv.raw⟩)) :: st.spritesheets,
                nextId := st.nextId + 1 }
              (SpriteSheet.init (Surface.convertAlpha
                ⟨st.nextId, none, 0, 0, w, h, Conv.raw⟩)) with ⟨sps, hs⟩
          exact ⟨sps, st.nextId + 1, hs⟩

lemma loadFont_state (env : Env) (st : AssetManager) (f : FPath) (n : String)
    (data : Descriptor) :
    ∃ fo, (loadFont env st f n data).1 = { st with fonts := fo } := by
  unfold loadFont
  rcases hs : data.size with _ | sz
  · exact ⟨st.fonts, rfl⟩
  · cases hfo : env.fontOk f
    · exact ⟨st.fonts, rfl⟩
    · exact ⟨_, rfl⟩

lemma load_file_state (env : Env) (st : AssetManager) (f : FPath) :
    (AssetManager.load_file env st f).1 = st ∨
    (∃ cf, (AssetManager.load_file env st f).1 = { st with cached_files := cf }) ∨
    (∃ cf sf ni, (AssetManager.load_file env st f).1 =
      { st with cached_files := cf, surfaces := sf, nextId := ni }) ∨
    (∃ cf tl ni, (AssetManager.load_file env st f).1 =
      { st with cached_files := cf, tilesheets := tl, nextId := ni }) ∨
    (∃ cf sp ni, (AssetManager.load_file env st f).1 =
      { st with cached_files := cf, spritesheets := sp, nextId := ni }) ∨
    (∃ cf fo, (AssetManager.load_file env st f).1 =
      { st with cached_files := cf, fonts := fo }) := by
  unfold AssetManager.load_file
  by_cases hmem : f ∈ st.cached_files
  · rw [if_pos hmem]
    exact Or.inl rfl
  · rw [if_neg hmem]
    cases hrel : relName st.root f with
    | none => exact Or.inl rfl
    | some n =>
      dsimp only
      rcases he : effectiveData env f with e | d
      · exact Or.inr (Or.inl ⟨_, rfl⟩)
      · dsimp only
        rcases hd : d.dtype with _ | t
        · exact Or.inr (Or.inl ⟨_, rfl⟩)
        · dsimp only
          by_cases h1 : t = "sprite"
          · rw [if_pos h1]
            rcases loadSprite_state env
                { st with cached_files := st.cached_files ++ [f] } f n d with ⟨sf, ni, hs⟩
            exact Or.inr (Or.inr (Or.inl ⟨_, sf, ni, hs⟩))
          · rw [if_neg h1]
            by_cases h2 : t = "tilesheet"
            · rw [if_pos h2]
              rcases loadTilesheet_state env
                  { st with cached_files := st.cached_files ++ [f] } f n d with ⟨tl, ni, hs⟩
              exact Or.inr (Or.inr (Or.inr (Or.inl ⟨_, tl, ni, hs⟩)))
            · rw [if_neg h2]
              by_cases h3 : t = "spritesheet"
              · rw [if_pos h3]
                rcases loadSpritesheet_state env
                    { st with cached_files := st.cached_files ++ [f] } f n d with ⟨sp, ni, hs⟩
                exact Or.inr (Or.inr (Or.inr (Or.inr (Or.inl ⟨_, sp, ni, hs⟩))))
              · rw [if_neg h3]
                by_cases h4 : t = "font"
                · rw [if_pos h4]
                  rcases loadFont_state env
                      { st with cached_files := st.cached_files ++ [f] } f n d with ⟨fo, hs⟩
                  exact Or.inr (Or.inr (Or.inr (Or.inr (Or.inr ⟨_, fo, hs⟩))))
                · rw [if_neg h4]
                  exact Or.inr (Or.inl ⟨_, rfl⟩)

lemma load_file_core (env : Env) (st : AssetManager) (f : FPath) :
    (AssetManager.load_file env st f).1.root = st.root ∧
    (AssetManager.load_file env st f).1.finished = st.finished ∧
    (AssetManager.load_file env st f).1.loaded_files = st.loaded_files ∧
    (AssetManager.load_file env st f).1.files = st.files := by
  rcases load_file_state env st f with h | ⟨cf, h⟩ | ⟨cf, sf, ni, h⟩ |
    ⟨cf, tl, ni, h⟩ | ⟨cf, sp, ni, h⟩ | ⟨cf, fo, h⟩ <;>
    rw [h] <;> exact ⟨rfl, rfl, rfl, rfl⟩

lemma loadAll_core (env : Env) : ∀ (l : List FPath) (st : AssetManager),
    (loadAll env st l).1.loaded_files = st.loaded_files ∧
    (loadAll env st l).1.files = st.files := by
  intro l
  induction l with
  | nil => intro st; exact ⟨rfl, rfl⟩
  | cons f fs ih =>
    intro st
    unfold loadAll
    rcases hlf : AssetManager.load_file env st f with ⟨st2, e⟩
    have hc := load_file_core env st f
    rw [hlf] at hc
    cases e with
    | some err => exact ⟨hc.2.2.1, hc.2.2.2⟩
    | none =>
      rcases ih st2 with ⟨ih1, ih2⟩
      exact ⟨ih1.trans hc.2.2.1, ih2.trans hc.2.2.2⟩

lemma start_ok_loaded (env : Env) (st : AssetManager) (preload : List FPath)
    (rt : Option (List String))
    (h0 : (AssetManager.start env st preload rt).2 = none) :
    (AssetManager.start env st preload rt).1.loaded_files = st.loaded_files := by
  unfold AssetManager.start at h0 ⊢
  by_cases hfin : st.finished = false
  · rw [if_pos hfin] at h0
    cases h0
  · rw [if_neg hfin] at h0 ⊢
    cases rt with
    | none =>
      dsimp only at h0 ⊢
      rcases hla : loadAll env
          { st with files := st.files ++
            (env.walk st.root).filter (fun f => f.ext ∈ exts) } preload with ⟨st3, e⟩
      have hc := loadAll_core env preload
          { st with files := st.files ++
            (env.walk st.root).filter (fun f => f.ext ∈ exts) }
      rw [hla] at hc h0
      cases e with
      | some err => exact Option.noConfusion h0
      | none => exact hc.1
    | some r =>
      dsimp only at h0 ⊢
      rcases hla : loadAll env
          { st with root := r, files := st.files ++
            (env.walk r).filter (fun f => f.ext ∈ exts) } preload with ⟨st3, e⟩
      have hc := loadAll_core env preload
          { st with root := r, files := st.files ++
            (env.walk r).filter (fun f => f.ext ∈ exts) }
      rw [hla] at hc h0
      cases e with
      | some err => exact Option.noConfusion h0
      | none => exact hc.1

lemma progress_bound (st : AssetManager) (q : ℚ)
    (hle : st.loaded_files ≤ st.files.length)
    (h : st.get_progress = some q) : 0 ≤ q ∧ q ≤ 1 := by
  unfold AssetManager.get_progress at h
  by_cases hz : st.files.length = 0
  · rw [if_pos hz] at h
    cases h
  · rw [if_neg hz] at h
    simp only [Option.some.injEq] at h
    subst h
    have hpos : (0 : ℚ) < (st.files.length : ℚ) := by
      exact_mod_cast Nat.pos_of_ne_zero hz
    constructor
    · positivity
    · rw [div_le_one hpos]
      exact_mod_cast hle

lemma runStates_progress (env : Env) : ∀ (fs : List FPath) (st : AssetManager),
    st.loaded_files + fs.length ≤ st.files.length →
    ∀ st2 ∈ runStates env fs st, ∀ q, st2.get_progress = some q →
      0 ≤ q ∧ q ≤ 1 := by
  intro fs
  induction fs with
  | nil =>
    intro st hb st2 hmem q hq
    simp only [runStates, List.mem_singleton] at hmem
    subst hmem
    simp [AssetManager.get_progress] at hq
  | cons f fs ih =>
    intro st hb st2 hmem q hq
    unfold runStates at hmem
    rcases hlf : AssetManager.load_file env st f with ⟨sta, e⟩
    have hc := load_file_core env st f
    rw [hlf] at hc hmem
    have hcl : sta.loaded_files = st.loaded_files := hc.2.2.1
    have hcf : sta.files = st.files := hc.2.2.2
    simp only [List.length_cons] at hb
    cases e with
    | some err =>
      simp only [List.mem_singleton] at hmem
      subst hmem
      refine progress_bound _ q ?_ hq
      rw [hcl, hcf]
      omega
    | none =>
      simp only [List.mem_cons] at hmem
      rcases hmem with hmem | hmem
      · subst hmem
        refine progress_bound _ q ?_ hq
        show ({ sta with loaded_files := sta.loaded_files + 1 }).loaded_files ≤
          ({ sta with loaded_files := sta.loaded_files + 1 }).files.length
        have hf2 : ({ sta with loaded_files := sta.loaded_files + 1 }).files = sta.files :=
          rfl
        rw [hf2, hcf]
        show sta.loaded_files + 1 ≤ st.files.length
        omega
      · refine ih { sta with loaded_files := sta.loaded_files + 1 } ?_ _ hmem q hq
        show ({ sta with loaded_files := sta.loaded_files + 1 }).loaded_files +
          fs.length ≤ ({ sta with loaded_files := sta.loaded_files + 1 }).files.length
        have hf2 : ({ sta with loaded_files := sta.loaded_files + 1 }).files = sta.files :=
          rfl
        rw [hf2, hcf]
        show sta.loaded_files + 1 + fs.length ≤ st.files.length
        omega

/-- Claim C1 (evaluation of the code at the failing inputs): get_progress
divides loaded_files by len(files); with zero discovered pending files, and
likewise after the background phase has drained and cleared the pending list,
the division is by zero — the call raises ZeroDivisionError (modelled as none)
instead of returning 1.0 as the specification requires. -/
theorem c1_progress_zero_division :
    (AssetManager.start c1Env (initAM ["r"]) [] none).2 = none ∧
    c1Run.files = [] ∧
    c1Run.get_progress = none ∧
    (runWorker c1Env c1Run.files c1Run).get_progress = none ∧
    (AssetManager.start c1EnvB (initAM ["r"]) [] none).2 = none ∧
    c1EndB.loaded_files = 1 ∧ c1EndB.finished = true ∧
    c1EndB.get_progress = none := by decide

/-- Claim C2 (amended): on the first load of a fresh AssetManager, every
get_progress value that is returned (rather than raising) lies in [0, 1];
the original claim fails for later start() calls because loaded_files is
never reset (see the counterexample). -/
theorem c2_progress_in_unit_interval_first_load (env : Env) (root : List String)
    (preload : List FPath) (rt : Option (List String)) (st2 : AssetManager)
    (q : ℚ)
    (h0 : (AssetManager.start env (initAM root) preload rt).2 = none)
    (h2 : st2 ∈ (AssetManager.start env (initAM root) preload rt).1 ::
      runStates env (AssetManager.start env (initAM root) preload rt).1.files
        (AssetManager.start env (initAM root) preload rt).1)
    (h3 : st2.get_progress = some q) :
    0 ≤ q ∧ q ≤ 1 := by
  have hl0 : (AssetManager.start env (initAM root) preload rt).1.loaded_files = 0 :=
    start_ok_loaded env (initAM root) preload rt h0
  rcases List.mem_cons.mp h2 with rfl | hmem
  · exact progress_bound _ q (by rw [hl0]; exact Nat.zero_le _) h3
  · exact runStates_progress env _ _ (by rw [hl0]; omega) st2 hmem q h3

def c2WEnv : Env :=
  ⟨fun _ => [⟨[], "a", ".png"⟩], fun _ => Sidecar.absent,
   fun _ => some (2, 2), fun _ => false⟩

/-- Witness for C2 (amended): the state right after a first start() on a
one-file root reports progress 0, which lies in [0, 1]. -/
theorem c2_progress_in_unit_interval_first_load_witness :
    (0 : ℚ) ≤ 0 ∧ (0 : ℚ) ≤ 1 :=
  c2_progress_in_unit_interval_first_load c2WEnv [] [] none
    (AssetManager.start c2WEnv (initAM []) [] none).1 0 (by decide)
    (List.mem_cons_self _ _)
    (by
      have h1 : (AssetManager.start c2WEnv (initAM []) [] none).1.loaded_files = 0 := by
        decide
      have h2 : (AssetManager.start c2WEnv (initAM []) [] none).1.files.length = 1 := by
        decide
      simp [AssetManager.get_progress, h1, h2])

/-- Counterexample to C2 as stated: run a first start() over a two-file root
to completion (loaded_files becomes 2 and is never reset), then start() again;
after the first worker step of the rescan (both files are skipped as already
cached but still counted), get_progress returns 3/2, which is outside [0, 1]. -/
theorem c2_counterexample :
    (AssetManager.start c2Env (initAM []) [] none).2 = none ∧
    (AssetManager.start c2Env c2End1 [] none).2 = none ∧
    c2End1.loaded_files = 2 ∧ c2End1.finished = true ∧
    c2Obs.get_progress = some (3 / 2) ∧
    ¬((3 : ℚ) / 2 ≤ 1) := by
  refine ⟨by decide, by decide, by decide, by decide, ?_, by norm_num⟩
  have h1 : c2Obs.loaded_files = 3 := by decide
  have h2 : c2Obs.files.length = 2 := by decide
  simp [AssetManager.get_progress, h1, h2]

/-- Claim C7 (amended): when the effective descriptor resolves to one of the
image-decoding kinds (sprite, tilesheet, spritesheet) and the backend decode
fails, __load_file leaves all four asset caches unchanged, so lookups for the
file's logical name still report NotFound; the original claim fails for
failures after a successful decode (see the counterexample). -/
theorem c7_decode_failure_leaves_caches (env : Env) (st : AssetManager)
    (f : FPath) (d : Descriptor) (t : String)
    (hd : effectiveData env f = Except.ok d) (ht : d.dtype = some t)
    (htk : t = "sprite" ∨ t = "tilesheet" ∨ t = "spritesheet")
    (hdec : env.decode f = none) :
    (AssetManager.load_file env st f).1.surfaces = st.surfaces ∧
    (AssetManager.load_file env st f).1.tilesheets = st.tilesheets ∧
    (AssetManager.load_file env st f).1.spritesheets = st.spritesheets ∧
    (AssetManager.load_file env st f).1.fonts = st.fonts := by
  unfold AssetManager.load_file
  by_cases hmem : f ∈ st.cached_files
  · rw [if_pos hmem]
    exact ⟨rfl, rfl, rfl, rfl⟩
  · rw [if_neg hmem]
    cases hrel : relName st.root f with
    | none => exact ⟨rfl, rfl, rfl, rfl⟩
    | some n =>
      dsimp only
      rw [hd]
      dsimp only
      rw [ht]
      dsimp only
      rcases htk with h | h | h <;> subst h
      · rw [if_pos rfl]
        unfold loadSprite
        rw [hdec]
        exact ⟨rfl, rfl, rfl, rfl⟩
      · rw [if_neg (by decide), if_pos rfl]
        unfold loadTilesheet
        rw [hdec]
        exact ⟨rfl, rfl, rfl, rfl⟩
      · rw [if_neg (by decide), if_neg (by decide), if_pos rfl]
        unfold loadSpritesheet
        rw [hdec]
        exact ⟨rfl, rfl, rfl, rfl⟩

def c7WEnv : Env :=
  ⟨fun _ => [], fun _ => Sidecar.absent, fun _ => none, fun _ => false⟩
def c7WF : FPath := ⟨[], "a", ".png"⟩

/-- Witness for C7 (amended): a png whose decode fails leaves all caches of a
fresh manager unchanged. -/
theorem c7_decode_failure_leaves_caches_witness :
    (AssetManager.load_file c7WEnv (initAM []) c7WF).1.surfaces =
      (initAM []).surfaces ∧
    (AssetManager.load_file c7WEnv (initAM []) c7WF).1.tilesheets =
      (initAM []).tilesheets ∧
    (AssetManager.load_file c7WEnv (initAM []) c7WF).1.spritesheets =
      (initAM []).spritesheets ∧
    (AssetManager.load_file c7WEnv (initAM []) c7WF).1.fonts =
      (initAM []).fonts :=
  c7_decode_failure_leaves_caches c7WEnv (initAM []) c7WF
    { dtype := some "sprite", alpha := some true } "sprite"
    (by decide) (by decide) (Or.inl rfl) (by decide)

/-- Counterexample to C7 as stated: a sidecar descriptor of type sprite with
no alpha field makes __load_file store the raw decoded surface in the surface
cache and only then raise KeyError; after the failure, get_surface succeeds and
returns the partially initialized (never alpha-converted) handle instead of
reporting NotFound. -/
theorem c7_counterexample :
    (AssetManager.load_file c7Env (initAM []) c7F).2 = some Err.keyError ∧
    AssetManager.get_surface (AssetManager.load_file c7Env (initAM []) c7F).1 "a" =
      Except.ok ⟨0, none, 0, 0, 8, 8, Conv.raw⟩ ∧
    AssetManager.get_surface (initAM []) "a" = Except.error Err.keyError := by
  decide

/-- Claim C8 (amended): a single __load_file call stores into at most one of
the four kind caches — the other three are left exactly as they were; the
original claim about a logical name living in at most one cache fails because
two files differing only in extension share one logical name (see the
counterexample). -/
theorem c8_load_file_single_kind (env : Env) (st : AssetManager) (f : FPath) :
    ((AssetManager.load_file env st f).1.tilesheets = st.tilesheets ∧
     (AssetManager.load_file env st f).1.spritesheets = st.spritesheets ∧
     (AssetManager.load_file env st f).1.fonts = st.fonts) ∨
    ((AssetManager.load_file env st f).1.surfaces = st.surfaces ∧
     (AssetManager.load_file env st f).1.spritesheets = st.spritesheets ∧
     (AssetManager.load_file env st f).1.fonts = st.fonts) ∨
    ((AssetManager.load_file env st f).1.surfaces = st.surfaces ∧
     (AssetManager.load_file env st f).1.tilesheets = st.tilesheets ∧
     (AssetManager.load_file env st f).1.fonts = st.fonts) ∨
    ((AssetManager.load_file env st f).1.surfaces = st.surfaces ∧
     (AssetManager.load_file env st f).1.tilesheets = st.tilesheets ∧
     (AssetManager.load_file env st f).1.spritesheets = st.spritesheets) := by
  rcases load_file_state env st f with h | ⟨cf, h⟩ | ⟨cf, sf, ni, h⟩ |
    ⟨cf, tl, ni, h⟩ | ⟨cf, sp, ni, h⟩ | ⟨cf, fo, h⟩ <;> rw [h]
  · exact Or.inl ⟨rfl, rfl, rfl⟩
  · exact Or.inl ⟨rfl, rfl, rfl⟩
  · exact Or.inl ⟨rfl, rfl, rfl⟩
  · exact Or.inr (Or.inl ⟨rfl, rfl, rfl⟩)
  · exact Or.inr (Or.inr (Or.inl ⟨rfl, rfl, rfl⟩))
  · exact Or.inr (Or.inr (Or.inr ⟨rfl, rfl, rfl⟩))

/-- Counterexample to C8 as stated: a root containing a.png and a.ttf loads
both files to completion; the logical name a then has an entry in the
surface cache and in the font cache simultaneously. -/
theorem c8_counterexample :
    (AssetManager.start c8Env (initAM []) [] none).2 = none ∧
    c8End.finished = true ∧
    AssetManager.get_surface c8End "a" =
      Except.ok ⟨0, none, 0, 0, 4, 4, Conv.alpha⟩ ∧
    AssetManager.get_font c8End "a" = Except.ok ⟨⟨[], "a", ".ttf"⟩, 12⟩ := by
  decide

lemma load_file_marks (env : Env) (st : AssetManager) (f : FPath) (n : String)
    (hnc : f ∉ st.cached_files) (hn : relName st.root f = some n) :
    (AssetManager.load_file env st f).1.cached_files =
      st.cached_files ++ [f] := by
  unfold AssetManager.load_file
  rw [if_neg hnc, hn]
  dsimp only
  rcases he : effectiveData env f with e | d
  · rfl
  · dsimp only
    rcases hd : d.dtype with _ | t
    · rfl
    · dsimp only
      by_cases h1 : t = "sprite"
      · rw [if_pos h1]
        rcases loadSprite_state env
            { st with cached_files := st.cached_files ++ [f] } f n d with ⟨sf, ni, hs⟩
        rw [hs]
      · rw [if_neg h1]
        by_cases h2 : t = "tilesheet"
        · rw [if_pos h2]
          rcases loadTilesheet_state env
              { st with cached_files := st.cached_files ++ [f] } f n d with ⟨tl, ni, hs⟩
          rw [hs]
        · rw [if_neg h2]
          by_cases h3 : t = "spritesheet"
          · rw [if_pos h3]
            rcases loadSpritesheet_state env
                { st with cached_files := st.cached_files ++ [f] } f n d with ⟨sp, ni, hs⟩
            rw [hs]
          · rw [if_neg h3]
            by_cases h4 : t = "font"
            · rw [if_pos h4]
              rcases loadFont_state env
                  { st with cached_files := st.cached_files ++ [f] } f n d with ⟨fo, hs⟩
              rw [hs]
            · rw [if_neg h4]

/-- Claim C10 (amended): when the logical name computation succeeds, the path
is recorded in the already-loaded list before descriptor resolution and
decoding, so a load that then fails leaves the path marked and every later
load of the same path returns immediately, without error and with the state
(caches included) unchanged; the original claim fails when the name
computation itself fails — that happens before recording (see the
counterexample). -/
theorem c10_failed_load_marked (env : Env) (st : AssetManager) (f : FPath)
    (n : String) (st2 : AssetManager) (e : Err)
    (hnc : f ∉ st.cached_files) (hn : relName st.root f = some n)
    (hres : AssetManager.load_file env st f = (st2, some e)) :
    st2.cached_files = st.cached_files ++ [f] ∧
    AssetManager.load_file env st2 f = (st2, none) := by
  have h1 : (AssetManager.load_file env st f).1 = st2 := by rw [hres]
  have h2 : st2.cached_files = st.cached_files ++ [f] := by
    rw [← h1]
    exact load_file_marks env st f n hnc hn
  refine ⟨h2, ?_⟩
  have hmem : f ∈ st2.cached_files := by
    rw [h2]
    simp
  unfold AssetManager.load_file
  rw [if_pos hmem]

def c10WEnv : Env :=
  ⟨fun _ => [], fun _ => Sidecar.absent, fun _ => none, fun _ => false⟩
def c10WF : FPath := ⟨[], "a", ".png"⟩
def c10WSt : AssetManager := (AssetManager.load_file c10WEnv (initAM []) c10WF).1

/-- Witness for C10 (amended): a decode failure leaves the path marked, and the
retry returns immediately with no error and no state change. -/
theorem c10_failed_load_marked_witness :
    c10WSt.cached_files = (initAM []).cached_files ++ [c10WF] ∧
    AssetManager.load_file c10WEnv c10WSt c10WF = (c10WSt, none) :=
  c10_failed_load_marked c10WEnv (initAM []) c10WF "a" c10WSt Err.ioError
    (by decide) (by decide) (by decide)

def c10Env : Env :=
  ⟨fun _ => [], fun _ => Sidecar.absent, fun _ => none, fun _ => false⟩

/-- Counterexample to C10 as stated: loading a path that is not under the root
fails computing the logical name (pathlib relative_to raises ValueError)
before the path is recorded; the path is not marked as loaded and the retry
fails with the same error instead of returning silently. -/
theorem c10_counterexample :
    AssetManager.load_file c10Env (initAM ["r"]) c10F =
      (initAM ["r"], some Err.valueError) ∧
    (initAM ["r"]).cached_files = [] ∧
    (AssetManager.load_file c10Env
      ((AssetManager.load_file c10Env (initAM ["r"]) c10F).1) c10F).2 =
        some Err.valueError := by decide
